import Mathlib

/-!
Formal model of cvd2img (src/main.rs, src/disk.rs, src/components.rs).

File names are modelled as `List Char` and file contents as `List Nat`
(one entry per byte); a directory is a partial map `FS` from names to
contents.  An `io::Result` error propagated with the question-mark
operator, a Rust runtime abort (failed unwrap, out-of-bounds index,
division by zero) and a `println` followed by `process::exit(-1)` are the
three non-ok constructors of `Outcome`.  Machine integers (`u64`, `usize`)
are modelled as `Nat`, with an explicit `% 2 ^ 64` at the two places where
the Rust arithmetic can wrap in release builds (debug builds would abort
there instead; the affected claims fail either way).  External tools
spawned through `std::process::Command` are modelled by a `ToolOutcome`
argument describing the spawn result, plus, for the sparse converter, a
function giving the bytes the converter writes.
-/

namespace Cvd2img

/-- A directory: a partial map from file name to raw byte contents. -/
def FS : Type := List Char → Option (List Nat)

/-- Point update of a directory: models creating, replacing or removing
(`c = none`) a single file. -/
def fsUpdate (fs : FS) (name : List Char) (c : Option (List Nat)) : FS :=
  fun n => if n = name then c else fs n

/-- Reason printed before `process::exit(-1)` in the tool-invocation error
arms of src/components.rs: the executable was not found in the component
directory, or spawning it failed for another reason.  (The Rust messages
are `Can not find <tool> in <dir>` and `Error executing <tool>`.) -/
inductive ExitReason where
  | toolNotFound (tool : String)
  | toolExecError (tool : String)
  deriving DecidableEq

/-- How a modelled call ends: normal return, an `io::Result` error
propagated to the caller, a Rust runtime abort, or `process::exit(-1)`. -/
inductive Outcome (α : Type) where
  | ok (a : α)
  | err
  | panicked
  | exited (r : ExitReason)
  deriving DecidableEq

/-- Result of spawning an external tool with `Command::output()`: the
child ran to completion (with any exit status — `output` is `Ok` even for
a non-zero status), the executable was missing (`ErrorKind::NotFound`),
or spawning failed for another reason. -/
inductive ToolOutcome where
  | output (status : Int) (stdout : List Nat) (stderr : List Nat)
  | notFound
  | spawnErr

/-! ## src/disk.rs -/

/-- Loop of `best_block_size` (src/disk.rs lines 6-14).  In the Rust loop
`bs` starts at 1048576 = 2 ^ 20 and is halved each iteration, so it takes
exactly the values 2 ^ n for n = 20, 19, ..., 0 and then 0; we index the
loop by the exponent.  When the loop leaves bs = 1 without returning
(possible only for size ≤ 1) the next iteration has bs = 0, where Rust
evaluates `size % 0` — a division-by-zero abort — whenever `size > 0`
holds, and repeats `0 > 0` forever when size = 0; both non-returning
continuations are modelled as `none`. -/
def bbsDown (size : Nat) : Nat → Option Nat
  | 0 => if 1 < size ∧ size % 1 = 0 then some 1 else none
  | n + 1 =>
    if 2 ^ (n + 1) < size ∧ size % 2 ^ (n + 1) = 0 then some (2 ^ (n + 1))
    else bbsDown size n

/-- `best_block_size` (src/disk.rs): largest power of two ≤ 2 ^ 20 that
divides `size` and is strictly smaller than it; `none` when the Rust loop
does not return (size ≤ 1). -/
def best_block_size (size : Nat) : Option Nat :=
  bbsDown size 20

/-- Models Rust `str` prefix comparison: `pat` begins the list `l`. -/
def leadsWith : List Char → List Char → Bool
  | [], _ => true
  | _ :: _, [] => false
  | p :: ps, x :: xs => p == x && leadsWith ps xs

/-- Models Rust `str::contains(pat)`: `pat` occurs contiguously in `l`. -/
def hasSubstr (pat : List Char) : List Char → Bool
  | [] => leadsWith pat []
  | x :: xs => leadsWith pat (x :: xs) || hasSubstr pat xs

/-- The literal `"blank"` tested by `image.contains("blank")`. -/
def blankStr : List Char := "blank".toList

/-- Worker for `splitOnChar`; `acc` holds the current field reversed. -/
def splitOnCharAux (c : Char) : List Char → List Char → List (List Char)
  | [], acc => [acc.reverse]
  | x :: xs, acc =>
    if x == c then acc.reverse :: splitOnCharAux c xs []
    else splitOnCharAux c xs (x :: acc)

/-- Models Rust `str::split(c).collect::<Vec<_>>()`. -/
def splitOnChar (c : Char) (l : List Char) : List (List Char) :=
  splitOnCharAux c l []

/-- Models Rust `str::parse::<u64>()`: an optional leading plus sign, then
one or more ASCII digits, with a value below 2 ^ 64. -/
def parse_u64 (s : List Char) : Option Nat :=
  let ds := match s with
    | '+' :: rest => rest
    | _ => s
  if ds = [] then none
  else if ds.all Char.isDigit then
    let v := ds.foldl (fun a c => a * 10 + (c.toNat - 48)) 0
    if v < 2 ^ 64 then some v else none
  else none

/-- The declared size of a blank component (src/disk.rs lines 31-32):
`image.split(':')` and then `elems[1].parse::<u64>().unwrap()`.  `none`
covers both aborts: `elems[1]` out of bounds (no colon in the name) and a
failed parse. -/
def blankSize (img : List Char) : Option Nat :=
  match (splitOnChar ':' img).get? 1 with
  | none => none
  | some e => parse_u64 e

/-- The do-while loop of the blank branch (src/disk.rs lines 36-42): write
a full `bs`-byte zero chunk, stop once the running total reaches the
declared size, i.e. once the remaining count `r` is at most `bs`.  The
Rust loop terminates because `bs ≥ 1` and each iteration lowers the
remaining count by `bs`; the extra fuel argument (consumed once per
iteration and initialised to the declared size, an upper bound on the
iteration count) only makes that termination structural. -/
def blankLoop (bs : Nat) : Nat → Nat → List Nat
  | 0, _ => []
  | fuel + 1, r =>
    List.replicate bs 0 ++ (if r ≤ bs then [] else blankLoop bs fuel (r - bs))

/-- The copy loop of the file branch (src/disk.rs lines 51-58): read up to
`bs` bytes into the buffer (a read from a regular file at position `pos`
returns exactly `min bs (len - pos)` bytes, overwriting the front of the
buffer and leaving the rest stale), then write THE WHOLE buffer — the
Rust code passes `&buf`, not `&buf[..n]` — advance by the count read and
stop once it reaches the file size.  As in `blankLoop`, the fuel argument
(initialised to the file size) is an upper bound on the iteration count
that makes termination structural. -/
def copyLoop (contents : List Nat) (bs : Nat) : Nat → Nat → List Nat → List Nat
  | 0, _, _ => []
  | fuel + 1, pos, buf =>
    let chunk := (contents.drop pos).take bs
    let buf2 := chunk ++ buf.drop chunk.length
    buf2 ++
      (if contents.length ≤ pos + chunk.length then []
       else copyLoop contents bs fuel (pos + chunk.length) buf2)

/-- The byte size `create_disk_image` records for a component: the
declared size for a blank-named component, the source file size
otherwise. -/
def componentSize (fs : FS) (image : List Char) : Option Nat :=
  if hasSubstr blankStr image then blankSize image
  else (fs image).map List.length

/-- The per-component loop of `create_disk_image` (src/disk.rs lines
29-62), producing the payload bytes written between the two reserved
regions and the `parts` vector.  An error aborts the remaining components
exactly as the question-mark operator does; the partial bytes already
written to the output file in that case are not represented, since no
complete image is produced. -/
def assembleComponents (fs : FS) :
    List (List Char × List Char) → Outcome (List Nat × List (List Char × List Char × Nat))
  | [] => Outcome.ok ([], [])
  | (image, name) :: rest =>
    if hasSubstr blankStr image then
      match blankSize image with
      | none => Outcome.panicked
      | some size =>
        match best_block_size size with
        | none => Outcome.panicked
        | some bs =>
          match assembleComponents fs rest with
          | Outcome.ok (out, ps) =>
            Outcome.ok (blankLoop bs size size ++ out, (image, name, size) :: ps)
          | e => e
    else
      match fs image with
      | none => Outcome.err
      | some contents =>
        match best_block_size contents.length with
        | none => Outcome.panicked
        | some bs =>
          match assembleComponents fs rest with
          | Outcome.ok (out, ps) =>
            Outcome.ok
              (copyLoop contents bs contents.length 0 (List.replicate bs 0) ++ out,
                (image, name, contents.length) :: ps)
          | e => e

/-- `create_disk_image` (src/disk.rs lines 16-68): a 20480-byte zero
reservation for the GPT header, the component payloads in order, a
20480-byte zero reservation for the GPT footer; returns the bytes of the
produced file together with the `(image, name, size)` list. -/
def create_disk_image (fs : FS) (components : List (List Char × List Char)) :
    Outcome (List Nat × List (List Char × List Char × Nat)) :=
  match assembleComponents fs components with
  | Outcome.ok (payload, parts) =>
    Outcome.ok (List.replicate 20480 0 ++ payload ++ List.replicate 20480 0, parts)
  | Outcome.err => Outcome.err
  | Outcome.panicked => Outcome.panicked
  | Outcome.exited r => Outcome.exited r

/-- Sector count of one partition (src/disk.rs line 82):
`((size - 1) / 512) + 1` in u64 arithmetic.  For size = 0 the subtraction
wraps modulo 2 ^ 64 in release builds (debug builds abort); the explicit
remainder models the wrap.  The subsequent `try_into::<i64>()` always
succeeds, since the quotient is at most 2 ^ 55. -/
def partLenSectors (size : Nat) : Nat :=
  ((size + (2 ^ 64 - 1)) % 2 ^ 64) / 512 + 1

/-- The partition entries `create_partitions` (src/disk.rs lines 70-99)
adds to the fresh GPT, as `(name, startSector, endSector)` triples:
`start_sector` begins at 40 (the second argument) and advances by the
sector count of each partition; each entry spans
`start_sector .. start_sector + len - 1`.  The libparted device, the ext2
filesystem-type hint and the final commit carry no claim-relevant data
and are not represented. -/
def create_partitions :
    List (List Char × List Char × Nat) → Nat → List (List Char × Nat × Nat)
  | [], _ => []
  | p :: rest, start =>
    (p.2.1, start, start + partLenSectors p.2.2 - 1) ::
      create_partitions rest (start + partLenSectors p.2.2)

/-! ## src/components.rs -/

/-- `SPARSE_MAGIC` (src/components.rs line 10). -/
def SPARSE_MAGIC : List Nat := [0x3A, 0xFF, 0x26, 0xED]

/-- `is_sparse` (src/components.rs lines 47-57): open the image, read
exactly its first four bytes (an `io::Result` error when the file is
missing or shorter than four bytes) and compare them with the magic. -/
def is_sparse (fs : FS) (img : List Char) : Outcome Bool :=
  match fs img with
  | none => Outcome.err
  | some c => if c.length < 4 then Outcome.err else Outcome.ok (c.take 4 == SPARSE_MAGIC)

/-- `call_simg2img` (src/components.rs lines 18-45): spawn the converter
on (src, src.tmp); a missing executable or another spawn failure prints a
message and exits the process.  When the child runs, its exit status is
never inspected: the code binds `Ok(output) => output` and discards the
value.  The converter's effect is modelled by `conv`: it writes
`conv contents` to the temporary sibling, which `std::fs::rename` then
moves over the original (an `io::Result` error if the source was missing,
in which case no temporary file exists). -/
def call_simg2img (tool : ToolOutcome) (conv : List Nat → List Nat) (fs : FS)
    (img : List Char) : Outcome FS :=
  match tool with
  | ToolOutcome.output _ _ _ =>
    match fs img with
    | some c => Outcome.ok (fsUpdate fs img (some (conv c)))
    | none => Outcome.err
  | ToolOutcome.notFound => Outcome.exited (ExitReason.toolNotFound "simg2img")
  | ToolOutcome.spawnErr => Outcome.exited (ExitReason.toolExecError "simg2img")

/-- Body of the `transform_sparse_images` loop (src/components.rs lines
64-68), factored out as a definition: normalise one image in place,
converting it only when its magic marks it as sparse. -/
def normalizeImage (tool : ToolOutcome) (conv : List Nat → List Nat) (fs : FS)
    (img : List Char) : Outcome FS :=
  match is_sparse fs img with
  | Outcome.ok true => call_simg2img tool conv fs img
  | Outcome.ok false => Outcome.ok fs
  | Outcome.err => Outcome.err
  | Outcome.panicked => Outcome.panicked
  | Outcome.exited r => Outcome.exited r

/-- `transform_sparse_images` (src/components.rs lines 59-70): normalise
`super.img`, then `userdata.img`, threading the directory state. -/
def transform_sparse_images (tool : ToolOutcome) (conv : List Nat → List Nat)
    (fs : FS) : Outcome FS :=
  match normalizeImage tool conv fs ("super.img").toList with
  | Outcome.ok fs1 => normalizeImage tool conv fs1 ("userdata.img").toList
  | Outcome.err => Outcome.err
  | Outcome.panicked => Outcome.panicked
  | Outcome.exited r => Outcome.exited r

/-- `create_uboot` (src/components.rs lines 72-141) reduced to its
claim-relevant control flow: two tool invocations (`mkenvimage_slim`,
then `avbtool add_hash_footer`), each handled exactly like
`call_simg2img`: only a spawn failure is fatal, and a child that ran is
never asked for its exit status.  The writes of the fixed environment
input file to the temporary directory always succeed in this model. -/
def create_uboot (mkenv avb : ToolOutcome) : Outcome Unit :=
  match mkenv with
  | ToolOutcome.output _ _ _ =>
    match avb with
    | ToolOutcome.output _ _ _ => Outcome.ok ()
    | ToolOutcome.notFound => Outcome.exited (ExitReason.toolNotFound "avbtool")
    | ToolOutcome.spawnErr => Outcome.exited (ExitReason.toolExecError "avbtool")
  | ToolOutcome.notFound => Outcome.exited (ExitReason.toolNotFound "mkenvimage_slim")
  | ToolOutcome.spawnErr => Outcome.exited (ExitReason.toolExecError "mkenvimage_slim")

/-- The padding length `create_vbmeta` computes (src/components.rs line
184): `vec![0; (65535 - metadata.len() + 1)]` in u64 arithmetic.  In
release builds the subtraction wraps modulo 2 ^ 64 whenever the signed
image is larger than 65535 bytes (debug builds abort on the underflow);
the explicit remainders model the wrap, including the wrap of the
subsequent `+ 1` at length 65536. -/
def vbmeta_pad_len (len : Nat) : Nat :=
  ((65535 + 2 ^ 64 - len % 2 ^ 64) % 2 ^ 64 + 1) % 2 ^ 64

/-- Length of the vbmeta image after the padding write: the file is
opened for writing without truncation, the cursor seeks to end-of-file
and the pad is appended. -/
def vbmeta_padded_len (len : Nat) : Nat :=
  len + vbmeta_pad_len len

/-- `Arch` (src/components.rs lines 12-16). -/
inductive Arch where
  | X86_64
  | Aarch64
  deriving DecidableEq

/-- `props_x86_64_sw` (src/components.rs lines 196-225), one entry per
text line. -/
def props_x86_64_sw : List String :=
  [ "androidboot.hypervisor.protected_vm.supported=0"
  , "androidboot.modem_simulator_ports=9600"
  , "androidboot.lcd_density=320"
  , "androidboot.vendor.audiocontrol.server.port=9410"
  , "androidboot.vendor.audiocontrol.server.cid=3"
  , "androidboot.cuttlefish_config_server_port=6800"
  , "androidboot.vendor.vehiclehal.server.port=9300"
  , "androidboot.vsock_touch_port=7100"
  , "androidboot.fstab_suffix=cf.f2fs.hctr2"
  , "androidboot.vsock_keyboard_port=7000"
  , "androidboot.enable_confirmationui=0"
  , "androidboot.hypervisor.vm.supported=1"
  , "androidboot.serialno=CUTTLEFISHCVD011"
  , "androidboot.setupwizard_mode=DISABLED"
  , "androidboot.cpuvulkan.version=4202496"
  , "androidboot.ddr_size=4915MB"
  , "androidboot.boot_devices=pci0000:00/0000:00:0d.0,pci0000:00/0000:00:0e.0"
  , "androidboot.hardware.angle_feature_overrides_enabled=preferLinearFilterForYUV:mapUnspecifiedColorSpaceToPassThrough"
  , "androidboot.hardware.egl=angle"
  , "androidboot.enable_bootanimation=1"
  , "androidboot.hardware.gralloc=minigbm"
  , "androidboot.vendor.vehiclehal.server.cid=2"
  , "androidboot.hypervisor.version=cf-qemu_cli"
  , "androidboot.hardware.vulkan=pastel"
  , "androidboot.opengles.version=196609"
  , "androidboot.wifi_mac_prefix=5554"
  , "androidboot.vsock_tombstone_port=6600"
  , "androidboot.hardware.hwcomposer=ranchu"
  , "androidboot.serialconsole=0"
  ]

/-- `props_aarch64_sw` (src/components.rs lines 227-255), one entry per
text line. -/
def props_aarch64_sw : List String :=
  [ "androidboot.hypervisor.protected_vm.supported=0"
  , "androidboot.modem_simulator_ports=9600"
  , "androidboot.lcd_density=320"
  , "androidboot.vendor.audiocontrol.server.port=9410"
  , "androidboot.vendor.audiocontrol.server.cid=3"
  , "androidboot.cuttlefish_config_server_port=6800"
  , "androidboot.vendor.vehiclehal.server.port=9300"
  , "androidboot.vsock_touch_port=7100"
  , "androidboot.fstab_suffix=cf.f2fs.hctr2"
  , "androidboot.vsock_keyboard_port=7000"
  , "androidboot.enable_confirmationui=0"
  , "androidboot.hypervisor.vm.supported=0"
  , "androidboot.serialno=CUTTLEFISHCVD011"
  , "androidboot.setupwizard_mode=DISABLED"
  , "androidboot.cpuvulkan.version=4202496"
  , "androidboot.ddr_size=4915MB"
  , "androidboot.boot_devices=4010000000.pcie"
  , "androidboot.hardware.angle_feature_overrides_enabled=preferLinearFilterForYUV:mapUnspecifiedColorSpaceToPassThrough"
  , "androidboot.hardware.egl=angle"
  , "androidboot.enable_bootanimation=1"
  , "androidboot.hardware.gralloc=minigbm"
  , "androidboot.vendor.vehiclehal.server.cid=2"
  , "androidboot.hardware.vulkan=pastel"
  , "androidboot.opengles.version=196609"
  , "androidboot.wifi_mac_prefix=5554"
  , "androidboot.vsock_tombstone_port=6600"
  , "androidboot.hardware.hwcomposer=ranchu"
  , "androidboot.serialconsole=0"
  ]

/-- Modelled from the spec: the virgl-specific property lines of the
accelerated-rendering boot configuration.  main.rs calls a five-parameter
`create_bootconfig(..., arch, virgl_flag)`, but the version of
src/components.rs present here defines a four-parameter function without
the flag and without any accelerated-rendering block, so the accelerated
variant of the generator is code of this repository that is not under
src/.  The spec says only that the flag selects "a different (longer)
block" for accelerated rendering, which the software variant must not
contain; the extra lines are therefore represented by a placeholder. -/
def virgl_props : List String :=
  [ "androidboot.virgl_specific_property=1" ]

/-- Modelled from the spec: the boot-configuration text written by the
five-parameter `create_bootconfig` that main.rs calls, one entry per
line.  For `virgl = false` it is exactly the software-rendering property
block of the architecture found in src/components.rs; for `virgl = true`
the spec prescribes a longer block extending it with virgl-specific
lines, modelled by appending `virgl_props`. -/
def bootconfig_content (arch : Arch) (virgl : Bool) : List String :=
  (match arch with
   | Arch.Aarch64 => props_aarch64_sw
   | Arch.X86_64 => props_x86_64_sw) ++ (if virgl then virgl_props else [])

/-! ## src/main.rs -/

/-- `SYSTEM_COMPONENTS` (src/main.rs lines 15-34). -/
def SYSTEM_COMPONENTS : List (String × String) :=
  [ ("blank:1048576", "misc")
  , ("boot.img", "boot_a")
  , ("boot.img", "boot_b")
  , ("init_boot.img", "init_boot_a")
  , ("init_boot.img", "init_boot_b")
  , ("vendor_boot.img", "vendor_boot_a")
  , ("vendor_boot.img", "vendor_boot_b")
  , ("vbmeta.img", "vbmeta_a")
  , ("vbmeta.img", "vbmeta_b")
  , ("vbmeta_system.img", "vbmeta_system_a")
  , ("vbmeta_system.img", "vbmeta_system_b")
  , ("vbmeta_vendor_dlkm.img", "vbmeta_vendor_dlkm_a")
  , ("vbmeta_vendor_dlkm.img", "vbmeta_vendor_dlkm_b")
  , ("vbmeta_system_dlkm.img", "vbmeta_system_dlkm_a")
  , ("vbmeta_system_dlkm.img", "vbmeta_system_dlkm_b")
  , ("super.img", "super")
  , ("userdata.img", "userdata")
  , ("blank:67108864", "metadata")
  ]

/-- `PROPERTIES_COMPONENTS` (src/main.rs lines 36-41). -/
def PROPERTIES_COMPONENTS : List (String × String) :=
  [ ("uboot_env.img", "uboot_env")
  , ("vbmeta.img", "vbmeta")
  , ("blank:1048576", "frp")
  , ("bootconfig", "bootconfig")
  ]

/-! ## Helper lemmas -/

/-- Soundness of the `best_block_size` loop: a returned block size is
positive, divides the size, is strictly below it, and is a power of two
with exponent at most the loop index. -/
theorem bbsDown_some {s bs : Nat} :
    ∀ {n : Nat}, bbsDown s n = some bs →
      1 ≤ bs ∧ bs ∣ s ∧ bs < s ∧ ∃ k, k ≤ n ∧ bs = 2 ^ k := by
  intro n
  induction n with
  | zero =>
    intro h
    rw [bbsDown] at h
    split at h
    · next hc =>
      injection h with h
      subst h
      exact ⟨le_refl 1, one_dvd s, hc.1, 0, le_refl 0, rfl⟩
    · exact Option.noConfusion h
  | succ n ih =>
    intro h
    rw [bbsDown] at h
    split at h
    · next hc =>
      injection h with h
      subst h
      exact ⟨Nat.one_le_two_pow, Nat.dvd_of_mod_eq_zero hc.2, hc.1, n + 1, le_refl _, rfl⟩
    · obtain ⟨h1, h2, h3, k, hk, hbs⟩ := ih h
      exact ⟨h1, h2, h3, k, Nat.le_succ_of_le hk, hbs⟩

/-- Totality of the `best_block_size` loop on sizes of at least 2: the
final iteration (bs = 1) always returns for such sizes. -/
theorem bbsDown_isSome {s : Nat} (h2 : 2 ≤ s) : ∀ n : Nat, ∃ bs, bbsDown s n = some bs := by
  intro n
  induction n with
  | zero => exact ⟨1, by rw [bbsDown, if_pos ⟨h2, Nat.mod_one s⟩]⟩
  | succ n ih =>
    rw [bbsDown]
    split
    · exact ⟨_, rfl⟩
    · exact ih

/-- The facts about a returned block size used by the assembler proofs. -/
theorem best_block_size_some {s bs : Nat} (h : best_block_size s = some bs) :
    1 ≤ bs ∧ bs ∣ s ∧ bs < s := by
  rw [best_block_size] at h
  obtain ⟨h1, h2, h3, _⟩ := bbsDown_some h
  exact ⟨h1, h2, h3⟩

/-- The blank-region loop writes exactly the declared size when the chunk
size is positive and divides it. -/
theorem blankLoop_length {bs : Nat} (hbs : 1 ≤ bs) :
    ∀ (fuel r : Nat), bs ∣ r → 1 ≤ r → r ≤ fuel → (blankLoop bs fuel r).length = r := by
  intro fuel
  induction fuel with
  | zero => intro r _ h1 hle; omega
  | succ fuel ih =>
    intro r hdvd h1 hle
    rw [blankLoop]
    by_cases hstop : r ≤ bs
    · have hbr : bs ≤ r := Nat.le_of_dvd h1 hdvd
      rw [if_pos hstop]
      simp only [List.length_append, List.length_replicate, List.length_nil]
      omega
    · rw [if_neg hstop]
      have hlt : bs < r := by omega
      have hrec := ih (r - bs) (Nat.dvd_sub' hdvd dvd_rfl) (by omega) (by omega)
      simp only [List.length_append, List.length_replicate, hrec]
      omega

/-- The file-copy loop writes exactly the remaining byte count when the
chunk size is positive and divides both the file size and the current
position: every read then returns a full chunk and the final full-buffer
write lands exactly on the file size. -/
theorem copyLoop_length {l : List Nat} {bs : Nat} (hbs : 1 ≤ bs) (hdl : bs ∣ l.length) :
    ∀ (fuel pos : Nat) (buf : List Nat), bs ∣ pos → pos < l.length → buf.length = bs →
      l.length - pos ≤ fuel → (copyLoop l bs fuel pos buf).length = l.length - pos := by
  intro fuel
  induction fuel with
  | zero => intro pos buf _ hlt _ hle; omega
  | succ fuel ih =>
    intro pos buf hdp hlt hbuf hle
    have hrem : bs ≤ l.length - pos :=
      Nat.le_of_dvd (by omega) (Nat.dvd_sub' hdl hdp)
    have hchunk : ((l.drop pos).take bs).length = bs := by
      rw [List.length_take, List.length_drop]
      omega
    simp only [copyLoop, hchunk]
    by_cases hstop : l.length ≤ pos + bs
    · rw [if_pos hstop]
      simp only [List.append_nil, List.length_append, List.length_drop, hchunk, hbuf]
      omega
    · rw [if_neg hstop]
      have hbuf2 : (((l.drop pos).take bs) ++ buf.drop bs).length = bs := by
        simp only [List.length_append, List.length_drop, hchunk, hbuf]
        omega
      have hrec := ih (pos + bs) _ (Nat.dvd_add hdp dvd_rfl) (by omega) hbuf2 (by omega)
      simp only [List.length_append, hrec, List.length_drop, hchunk, hbuf]
      omega

/-- Every successful assembly writes, for each component in order, exactly
its byte size (declared size for blank-named components, source file size
otherwise), so the payload length is the sum of the recorded sizes. -/
theorem assembleComponents_ok {fs : FS} {comps : List (List Char × List Char)} :
    ∀ {payload : List Nat} {parts : List (List Char × List Char × Nat)},
      assembleComponents fs comps = Outcome.ok (payload, parts) →
      payload.length = (parts.map (fun p => p.2.2)).sum ∧
        List.Forall₂
          (fun c p => p.1 = c.1 ∧ p.2.1 = c.2 ∧ componentSize fs c.1 = some p.2.2)
          comps parts := by
  induction comps with
  | nil =>
    intro payload parts h
    rw [assembleComponents] at h
    simp only [Outcome.ok.injEq, Prod.mk.injEq] at h
    obtain ⟨rfl, rfl⟩ := h
    exact ⟨rfl, List.Forall₂.nil⟩
  | cons c rest ih =>
    intro payload parts h
    obtain ⟨image, name⟩ := c
    rw [assembleComponents] at h
    by_cases hb : hasSubstr blankStr image = true
    · rw [if_pos hb] at h
      cases hsz : blankSize image with
      | none => simp only [hsz] at h; exact Outcome.noConfusion h
      | some size =>
        simp only [hsz] at h
        cases hbb : best_block_size size with
        | none => simp only [hbb] at h; exact Outcome.noConfusion h
        | some bs =>
          simp only [hbb] at h
          cases hrec : assembleComponents fs rest with
          | ok pr =>
            obtain ⟨out, ps⟩ := pr
            simp only [hrec, Outcome.ok.injEq, Prod.mk.injEq] at h
            obtain ⟨rfl, rfl⟩ := h
            obtain ⟨hlen, hf⟩ := ih hrec
            obtain ⟨hbs1, hbsd, hbslt⟩ := best_block_size_some hbb
            constructor
            · have hlenB := blankLoop_length hbs1 size size hbsd (by omega) (le_refl size)
              simp only [List.length_append, hlenB, List.map_cons, List.sum_cons, hlen]
            · refine List.Forall₂.cons ⟨rfl, rfl, ?_⟩ hf
              rw [componentSize, if_pos hb, hsz]
          | err => simp only [hrec] at h; exact Outcome.noConfusion h
          | panicked => simp only [hrec] at h; exact Outcome.noConfusion h
          | exited r => simp only [hrec] at h; exact Outcome.noConfusion h
    · rw [if_neg hb] at h
      cases hfs : fs image with
      | none => simp only [hfs] at h; exact Outcome.noConfusion h
      | some contents =>
        simp only [hfs] at h
        cases hbb : best_block_size contents.length with
        | none => simp only [hbb] at h; exact Outcome.noConfusion h
        | some bs =>
          simp only [hbb] at h
          cases hrec : assembleComponents fs rest with
          | ok pr =>
            obtain ⟨out, ps⟩ := pr
            simp only [hrec, Outcome.ok.injEq, Prod.mk.injEq] at h
            obtain ⟨rfl, rfl⟩ := h
            obtain ⟨hlen, hf⟩ := ih hrec
            obtain ⟨hbs1, hbsd, hbslt⟩ := best_block_size_some hbb
            constructor
            · have hlenC := copyLoop_length hbs1 hbsd contents.length 0
                (List.replicate bs 0) (Nat.dvd_zero bs) (by omega)
                (List.length_replicate bs 0) (by omega)
              rw [Nat.sub_zero] at hlenC
              simp only [List.length_append, hlenC, List.map_cons, List.sum_cons, hlen]
            · refine List.Forall₂.cons ⟨rfl, rfl, ?_⟩ hf
              rw [componentSize, if_neg hb, hfs]
              rfl
          | err => simp only [hrec] at h; exact Outcome.noConfusion h
          | panicked => simp only [hrec] at h; exact Outcome.noConfusion h
          | exited r => simp only [hrec] at h; exact Outcome.noConfusion h

/-- A point update of the directory at a blank-named component is
invisible to the assembler: the blank branch never opens the named file,
and non-blank components have different names. -/
theorem assembleComponents_fsUpdate_blank {fs : FS} {img : List Char}
    {c : Option (List Nat)} (hb : hasSubstr blankStr img = true) :
    ∀ comps, assembleComponents (fsUpdate fs img c) comps = assembleComponents fs comps := by
  intro comps
  induction comps with
  | nil => rfl
  | cons comp rest ih =>
    obtain ⟨image, name⟩ := comp
    rw [assembleComponents, assembleComponents, ih]
    by_cases hbi : hasSubstr blankStr image = true
    · rw [if_pos hbi, if_pos hbi]
    · have hne : image ≠ img := by
        intro he
        rw [he, hb] at hbi
        exact hbi rfl
      rw [if_neg hbi, if_neg hbi]
      have hagree : fsUpdate fs img c image = fs image := by
        rw [fsUpdate, if_neg hne]
      rw [hagree]

/-! ## Claim theorems -/

/-- Claim C1 (amended): for every size s with 2 ≤ s ≤ 2 ^ 30,
`best_block_size s` terminates and returns a value that divides s evenly,
is a power of two at most 2 ^ 20, and is strictly less than s.  (The
original lower bound 1 fails: at s = 1 the Rust loop reaches bs = 0 and
aborts on `size % 0`, see the counterexample theorem.) -/
theorem best_block_size_spec (s : Nat) (h2 : 2 ≤ s) (h30 : s ≤ 2 ^ 30) :
    ∃ bs, best_block_size s = some bs ∧ bs ∣ s ∧ (∃ k, bs = 2 ^ k) ∧
      bs ≤ 2 ^ 20 ∧ bs < s := by
  obtain ⟨bs, hbs⟩ := bbsDown_isSome h2 20
  obtain ⟨h1, hdvd, hlt, k, hk, hpow⟩ := bbsDown_some hbs
  subst hpow
  exact ⟨2 ^ k, hbs, hdvd, ⟨k, rfl⟩, Nat.pow_le_pow_right (by norm_num) hk, hlt⟩

/-- Witness for `best_block_size_spec` at s = 12 (where the returned
block size is 4). -/
theorem best_block_size_spec_witness :
    (2 ≤ 12 ∧ 12 ≤ 2 ^ 30) ∧
      ∃ bs, best_block_size 12 = some bs ∧ bs ∣ 12 ∧ (∃ k, bs = 2 ^ k) ∧
        bs ≤ 2 ^ 20 ∧ bs < 12 :=
  ⟨⟨by norm_num, by norm_num⟩, best_block_size_spec 12 (by norm_num) (by norm_num)⟩

/-- Counterexample to claim C1 as stated: s = 1 lies in the claimed range
1 ≤ s ≤ 2 ^ 30, but `best_block_size 1` does not return a value — the
Rust loop reaches bs = 0 and aborts on the division `size % 0`. -/
theorem best_block_size_one_cex :
    1 ≤ 1 ∧ 1 ≤ 2 ^ 30 ∧ best_block_size 1 = none := by
  decide

/-- Claim C2: whenever `create_disk_image` produces a file, that file has
length exactly 20480 (header reservation) + the sum of the byte sizes of
all partitions (declared size for blank regions, source file size
otherwise) + 20480 (footer reservation), and the returned list pairs the
input components, in order, with those byte sizes. -/
theorem create_disk_image_length {fs : FS} {comps : List (List Char × List Char)}
    {out : List Nat} {parts : List (List Char × List Char × Nat)}
    (h : create_disk_image fs comps = Outcome.ok (out, parts)) :
    out.length = 20480 + (parts.map (fun p => p.2.2)).sum + 20480 ∧
      List.Forall₂
        (fun c p => p.1 = c.1 ∧ p.2.1 = c.2 ∧ componentSize fs c.1 = some p.2.2)
        comps parts := by
  rw [create_disk_image] at h
  cases hrec : assembleComponents fs comps with
  | ok pr =>
    obtain ⟨payload, ps⟩ := pr
    simp only [hrec, Outcome.ok.injEq, Prod.mk.injEq] at h
    obtain ⟨rfl, rfl⟩ := h
    obtain ⟨hlen, hf⟩ := assembleComponents_ok hrec
    refine ⟨?_, hf⟩
    simp only [List.length_append, List.length_replicate, hlen]
  | err => simp only [hrec] at h; exact Outcome.noConfusion h
  | panicked => simp only [hrec] at h; exact Outcome.noConfusion h
  | exited r => simp only [hrec] at h; exact Outcome.noConfusion h

/-- Witness for `create_disk_image_length`: one blank component of
declared size 2 yields a 40962-byte file recorded as size 2. -/
theorem create_disk_image_length_witness :
    create_disk_image (fun _ => none) [(("blank:2").toList, ("p").toList)] =
        Outcome.ok
          (List.replicate 20480 0 ++ (blankLoop 1 2 2 ++ []) ++ List.replicate 20480 0,
            [(("blank:2").toList, ("p").toList, 2)]) ∧
      (List.replicate 20480 0 ++ (blankLoop 1 2 2 ++ []) ++ List.replicate 20480 0).length =
        20480 + ([(("blank:2").toList, ("p").toList, 2)].map
          (fun p : List Char × List Char × Nat => p.2.2)).sum + 20480 :=
  ⟨rfl,
    (create_disk_image_length
      (show create_disk_image (fun _ => none) [(("blank:2").toList, ("p").toList)] =
          Outcome.ok
            (List.replicate 20480 0 ++ (blankLoop 1 2 2 ++ []) ++ List.replicate 20480 0,
              [(("blank:2").toList, ("p").toList, 2)]) from rfl)).1⟩

/-- Claim C10: the assembler dispatches on the substring "blank" in the
component source name; a blank-named component never has its named file
opened (any directory update at that name is invisible), and a blank-named
component without a parseable ':'-separated size field makes the assembler
abort (a Rust panic) rather than return an io error. -/
theorem blank_component_dispatch (fs : FS) (img : List Char) (c : Option (List Nat))
    (comps : List (List Char × List Char)) (hb : hasSubstr blankStr img = true) :
    create_disk_image (fsUpdate fs img c) comps = create_disk_image fs comps ∧
      ∀ name rest, blankSize img = none →
        create_disk_image fs ((img, name) :: rest) = Outcome.panicked ∧
          create_disk_image fs ((img, name) :: rest) ≠ Outcome.err := by
  constructor
  · rw [create_disk_image, create_disk_image, assembleComponents_fsUpdate_blank hb]
  · intro name rest hbs
    have hpan : assembleComponents fs ((img, name) :: rest) = Outcome.panicked := by
      rw [assembleComponents, if_pos hb, hbs]
    rw [create_disk_image, hpan]
    exact ⟨rfl, fun he => Outcome.noConfusion he⟩

/-- Witness for `blank_component_dispatch`: the name "blankdata" contains
"blank" but has no colon field; a file of that name in the directory is
ignored and the assembler aborts. -/
theorem blank_component_dispatch_witness :
    hasSubstr blankStr (("blankdata").toList) = true ∧
      blankSize (("blankdata").toList) = none ∧
      create_disk_image
          (fsUpdate (fun _ => some [7]) (("blankdata").toList) (some [1, 2]))
          [(("blankdata").toList, ("n").toList)] =
        create_disk_image (fun _ => some [7]) [(("blankdata").toList, ("n").toList)] ∧
      create_disk_image (fun _ => some [7]) [(("blankdata").toList, ("n").toList)] =
        Outcome.panicked :=
  ⟨by decide, by decide,
    (blank_component_dispatch (fun _ => some [7]) (("blankdata").toList) (some [1, 2])
      [(("blankdata").toList, ("n").toList)] (by decide)).1,
    ((blank_component_dispatch (fun _ => some [7]) (("blankdata").toList) (some [1, 2])
      [(("blankdata").toList, ("n").toList)] (by decide)).2 (("n").toList) [] (by decide)).1⟩

/-- Every partition occupies at least one sector. -/
theorem partLenSectors_pos (s : Nat) : 0 < partLenSectors s :=
  Nat.succ_pos _

/-- For positive u64 sizes the wrapped sector count is the usual ceiling
division by 512. -/
theorem partLenSectors_eq {s : Nat} (h1 : 1 ≤ s) (h64 : s < 2 ^ 64) :
    partLenSectors s = (s + 511) / 512 := by
  rw [partLenSectors]
  have e1 : s + (2 ^ 64 - 1) = (s - 1) + 2 ^ 64 := by omega
  rw [e1, Nat.add_mod_right, Nat.mod_eq_of_lt (show s - 1 < 2 ^ 64 by omega)]
  have e2 : s + 511 = (s - 1) + 512 := by omega
  rw [e2, Nat.add_div_right _ (by norm_num)]

/-- Structure of the partition entries for an arbitrary initial sector:
one entry per partition in order, each spanning its ceiling sector count,
with the head starting at the initial sector and each later entry starting
one sector after the previous entry ends. -/
theorem create_partitions_go_spec (parts : List (List Char × List Char × Nat)) :
    ∀ start : Nat, (∀ p ∈ parts, 1 ≤ p.2.2 ∧ p.2.2 < 2 ^ 64) →
      (create_partitions parts start).length = parts.length ∧
        List.Forall₂ (fun p e => e.1 = p.2.1 ∧ e.2.1 + (p.2.2 + 511) / 512 = e.2.2 + 1)
          parts (create_partitions parts start) ∧
        (∀ h0 : 0 < (create_partitions parts start).length,
          ((create_partitions parts start).get ⟨0, h0⟩).2.1 = start) ∧
        (∀ i, ∀ hi : i + 1 < (create_partitions parts start).length,
          ((create_partitions parts start).get ⟨i + 1, hi⟩).2.1 =
            ((create_partitions parts start).get ⟨i, Nat.lt_of_succ_lt hi⟩).2.2 + 1) := by
  induction parts with
  | nil =>
    intro start _
    refine ⟨rfl, List.Forall₂.nil, ?_, ?_⟩
    · intro h0
      exact absurd h0 (by rw [create_partitions]; simp)
    · intro i hi
      exact absurd hi (by rw [create_partitions]; simp)
  | cons p rest ih =>
    intro start h
    obtain ⟨hp1, hp64⟩ := h p (List.mem_cons_self p rest)
    obtain ⟨ihlen, ihf, ihhead, ihchain⟩ :=
      ih (start + partLenSectors p.2.2) (fun q hq => h q (List.mem_cons_of_mem p hq))
    have hL := partLenSectors_pos p.2.2
    rw [create_partitions]
    refine ⟨?_, ?_, ?_, ?_⟩
    · simp only [List.length_cons, ihlen]
    · refine List.Forall₂.cons ⟨rfl, ?_⟩ ihf
      show start + (p.2.2 + 511) / 512 = start + partLenSectors p.2.2 - 1 + 1
      rw [← partLenSectors_eq hp1 hp64]
      omega
    · intro h0
      rfl
    · intro i hi
      cases i with
      | zero =>
        have h0 : 0 < (create_partitions rest (start + partLenSectors p.2.2)).length := by
          simp only [List.length_cons] at hi
          omega
        have hget :
            (((p.2.1, start, start + partLenSectors p.2.2 - 1) ::
                create_partitions rest (start + partLenSectors p.2.2)).get ⟨1, hi⟩) =
              (create_partitions rest (start + partLenSectors p.2.2)).get ⟨0, h0⟩ := rfl
        rw [hget, ihhead h0]
        show start + partLenSectors p.2.2 = start + partLenSectors p.2.2 - 1 + 1
        omega
      | succ i =>
        have hi2 : i + 1 < (create_partitions rest (start + partLenSectors p.2.2)).length := by
          simp only [List.length_cons] at hi
          omega
        have hg1 :
            (((p.2.1, start, start + partLenSectors p.2.2 - 1) ::
                create_partitions rest (start + partLenSectors p.2.2)).get ⟨i + 1 + 1, hi⟩) =
              (create_partitions rest (start + partLenSectors p.2.2)).get ⟨i + 1, hi2⟩ := rfl
        have hg2 :
            (((p.2.1, start, start + partLenSectors p.2.2 - 1) ::
                create_partitions rest (start + partLenSectors p.2.2)).get
                  ⟨i + 1, Nat.lt_of_succ_lt hi⟩) =
              (create_partitions rest (start + partLenSectors p.2.2)).get
                ⟨i, Nat.lt_of_succ_lt hi2⟩ := rfl
        rw [hg1, hg2]
        exact ihchain i hi2

/-- Claim C3 (amended): for every partition list whose byte sizes are
positive u64 values, the builder creates one entry per partition in order;
the first entry starts at sector 40, each entry spans
[startSector, startSector + ceil(byteSize / 512) - 1] (stated additively:
start + ceil = end + 1), and each subsequent entry starts one sector after
the previous entry ends.  (The original claim, quantified over every
sequence, fails at byte size 0, where the Rust u64 subtraction in
`(size - 1) / 512 + 1` wraps, see the counterexample theorem.) -/
theorem create_partitions_spec (parts : List (List Char × List Char × Nat))
    (h : ∀ p ∈ parts, 1 ≤ p.2.2 ∧ p.2.2 < 2 ^ 64) :
    (create_partitions parts 40).length = parts.length ∧
      List.Forall₂ (fun p e => e.1 = p.2.1 ∧ e.2.1 + (p.2.2 + 511) / 512 = e.2.2 + 1)
        parts (create_partitions parts 40) ∧
      (∀ h0 : 0 < (create_partitions parts 40).length,
        ((create_partitions parts 40).get ⟨0, h0⟩).2.1 = 40) ∧
      (∀ i, ∀ hi : i + 1 < (create_partitions parts 40).length,
        ((create_partitions parts 40).get ⟨i + 1, hi⟩).2.1 =
          ((create_partitions parts 40).get ⟨i, Nat.lt_of_succ_lt hi⟩).2.2 + 1) :=
  create_partitions_go_spec parts 40 h

/-- Witness for `create_partitions_spec` on the system-image head layout:
a 1 MiB misc partition followed by a 10 MiB boot_a partition gives two
entries (spanning sectors 40-2087 and 2088-22567). -/
theorem create_partitions_spec_witness :
    (∀ p ∈ [(("blank:1048576").toList, ("misc").toList, 1048576),
        (("boot.img").toList, ("boot_a").toList, 10485760)],
      1 ≤ p.2.2 ∧ p.2.2 < 2 ^ 64) ∧
      (create_partitions [(("blank:1048576").toList, ("misc").toList, 1048576),
          (("boot.img").toList, ("boot_a").toList, 10485760)] 40).length = 2 :=
  ⟨by decide,
    (create_partitions_spec
      [(("blank:1048576").toList, ("misc").toList, 1048576),
        (("boot.img").toList, ("boot_a").toList, 10485760)] (by decide)).1⟩

/-- Counterexample to claim C3 as stated: a partition of byte size 0 does
not get the claimed span [40, 40 + ceil(0/512) - 1]; the wrapped u64
arithmetic makes its entry end at sector 40 + 2 ^ 55 - 1 instead (debug
builds abort on the underflow). -/
theorem create_partitions_zero_cex :
    create_partitions [(("a").toList, ("b").toList, 0)] 40 =
        [(("b").toList, 40, 36028797018964007)] ∧
      (36028797018964007 : Nat) ≠ 40 + (0 + 511) / 512 - 1 := by
  constructor
  · decide
  · decide

/-- Claim C4 (amended): for a signed verification-metadata file of length
L at most 65535, the padding step appends exactly 65536 - L zero bytes
(never zero bytes, and a full 65536 when L = 0, the only multiple of
65536 in range), so the padded length is 65536 — the smallest multiple of
65536 strictly greater than L.  (The original claim, quantified over
every L, fails at L = 65536: the u64 expression `65535 - L + 1` wraps to
0 there instead of yielding 65536, see the counterexample theorem; for
larger L release builds request an astronomic allocation and debug builds
abort.) -/
theorem vbmeta_pad_spec (L : Nat) (hL : L ≤ 65535) :
    vbmeta_pad_len L = 65536 - L ∧ 0 < vbmeta_pad_len L ∧
      vbmeta_padded_len L = 65536 ∧ L < vbmeta_padded_len L ∧
      vbmeta_padded_len L % 65536 = 0 ∧
      ∀ m, m % 65536 = 0 → L < m → vbmeta_padded_len L ≤ m := by
  have h1 : vbmeta_pad_len L = 65536 - L := by
    rw [vbmeta_pad_len, Nat.mod_eq_of_lt (show L < 2 ^ 64 by omega)]
    have e : 65535 + 2 ^ 64 - L = (65535 - L) + 2 ^ 64 := by omega
    rw [e, Nat.add_mod_right, Nat.mod_eq_of_lt (show 65535 - L < 2 ^ 64 by omega),
      Nat.mod_eq_of_lt (show 65535 - L + 1 < 2 ^ 64 by omega)]
    omega
  have h2 : vbmeta_padded_len L = 65536 := by
    rw [vbmeta_padded_len, h1]
    omega
  refine ⟨h1, by omega, h2, by omega, by rw [h2], ?_⟩
  intro m hm hLm
  obtain ⟨k, rfl⟩ := Nat.dvd_of_mod_eq_zero hm
  rw [h2]
  rcases Nat.eq_zero_or_pos k with hk | hk
  · subst hk
    omega
  · have : 65536 * 1 ≤ 65536 * k := Nat.mul_le_mul_left 65536 hk
    omega

/-- Witness for `vbmeta_pad_spec` at L = 100. -/
theorem vbmeta_pad_spec_witness :
    100 ≤ 65535 ∧
      (vbmeta_pad_len 100 = 65536 - 100 ∧ 0 < vbmeta_pad_len 100 ∧
        vbmeta_padded_len 100 = 65536 ∧ 100 < vbmeta_padded_len 100 ∧
        vbmeta_padded_len 100 % 65536 = 0 ∧
        ∀ m, m % 65536 = 0 → 100 < m → vbmeta_padded_len 100 ≤ m) :=
  ⟨by norm_num, vbmeta_pad_spec 100 (by norm_num)⟩

/-- Counterexample to claim C4 as stated: at the signed length L = 65536
(a multiple of 65536, where the claim promises a full extra 65536-byte
pad) the wrapped u64 computation appends 0 bytes, so the padded length is
65536, not strictly greater than L. -/
theorem vbmeta_pad_cex :
    vbmeta_pad_len 65536 = 0 ∧ vbmeta_padded_len 65536 = 65536 ∧
      ¬ 65536 < vbmeta_padded_len 65536 := by
  refine ⟨by decide, by decide, ?_⟩
  decide

/-- Claim C5 (amended): a missing executable and another spawn failure
are reported distinctly and terminate the process, but a tool that runs
and exits with a non-zero status is NOT detected: `Command::output()`
returns `Ok` for any exit status, the code discards the captured output
without inspecting it, and the pipeline continues. -/
theorem tool_exit_handling :
    (∀ s o e s2 o2 e2,
      create_uboot (ToolOutcome.output s o e) (ToolOutcome.output s2 o2 e2) =
        Outcome.ok ()) ∧
    (∀ avb, create_uboot ToolOutcome.notFound avb =
      Outcome.exited (ExitReason.toolNotFound "mkenvimage_slim")) ∧
    (∀ avb, create_uboot ToolOutcome.spawnErr avb =
      Outcome.exited (ExitReason.toolExecError "mkenvimage_slim")) ∧
    (∀ s o e, create_uboot (ToolOutcome.output s o e) ToolOutcome.notFound =
      Outcome.exited (ExitReason.toolNotFound "avbtool")) ∧
    (∀ s o e conv fs img c, fs img = some c →
      call_simg2img (ToolOutcome.output s o e) conv fs img =
        Outcome.ok (fsUpdate fs img (some (conv c)))) ∧
    (∀ conv fs img, call_simg2img ToolOutcome.notFound conv fs img =
      Outcome.exited (ExitReason.toolNotFound "simg2img")) ∧
    (∀ conv fs img, call_simg2img ToolOutcome.spawnErr conv fs img =
      Outcome.exited (ExitReason.toolExecError "simg2img")) ∧
    (∀ t t2 : String, ExitReason.toolNotFound t ≠ ExitReason.toolExecError t2) := by
  refine ⟨fun _ _ _ _ _ _ => rfl, fun _ => rfl, fun _ => rfl, fun _ _ _ => rfl,
    ?_, fun _ _ _ => rfl, fun _ _ _ => rfl, fun t t2 he => ExitReason.noConfusion he⟩
  intro s o e conv fs img c hc
  rw [call_simg2img, hc]

/-- Witness for `tool_exit_handling`: the converter, spawned on an
existing file and exiting with status 3, is treated as success. -/
theorem tool_exit_handling_witness :
    ((fun _ => some [7, 7]) : FS) (("super.img").toList) = some [7, 7] ∧
      call_simg2img (ToolOutcome.output 3 [] []) (fun b => b)
          (fun _ => some [7, 7]) (("super.img").toList) =
        Outcome.ok
          (fsUpdate (fun _ => some [7, 7]) (("super.img").toList) (some [7, 7])) :=
  ⟨rfl, tool_exit_handling.2.2.2.2.1 3 [] [] (fun b => b)
    (fun _ => some [7, 7]) (("super.img").toList) [7, 7] rfl⟩

/-- Counterexample to claim C5 as stated: both tools of `create_uboot`
run and exit with the non-zero status 1, yet the call returns ok — the
pipeline neither fails nor reports the exit code; the captured output is
discarded. -/
theorem tool_nonzero_exit_cex :
    create_uboot (ToolOutcome.output 1 [] []) (ToolOutcome.output 1 [] []) =
        Outcome.ok () ∧
      call_simg2img (ToolOutcome.output 1 [] []) (fun b => b)
          (fun _ => some [0x3A]) (("super.img").toList) ≠
        Outcome.exited (ExitReason.toolExecError "simg2img") := by
  constructor
  · rfl
  · rw [call_simg2img]
    exact fun he => Outcome.noConfusion he

/-- Claim C6 (amended): the fixed system-image component list has exactly
18 entries (not 17 as claimed) and the fixed properties-image component
list has exactly 4 entries. -/
theorem component_list_lengths :
    SYSTEM_COMPONENTS.length = 18 ∧ PROPERTIES_COMPONENTS.length = 4 := by
  constructor
  · rfl
  · rfl

/-- Counterexample to claim C6 as stated: the system component list does
not have 17 entries. -/
theorem system_components_not_17 : SYSTEM_COMPONENTS.length ≠ 17 := by
  decide

/-- Claim C7: a file is classified sparse exactly when its first four
bytes equal the fixed magic — the byte sequence 0x3A 0xFF 0x26 0xED,
which spells the magic value 0x3AFF26ED in the order the bytes are read;
on a non-matching (already raw) file the normalizer call is a no-op
leaving the directory unchanged, so with both well-known images raw the
whole transform pass changes nothing. -/
theorem sparse_normalizer_spec (tool : ToolOutcome) (conv : List Nat → List Nat)
    (fs : FS) (cs cu : List Nat)
    (hs : fs (("super.img").toList) = some cs) (h4s : 4 ≤ cs.length)
    (hraws : cs.take 4 ≠ SPARSE_MAGIC)
    (hu : fs (("userdata.img").toList) = some cu) (h4u : 4 ≤ cu.length)
    (hrawu : cu.take 4 ≠ SPARSE_MAGIC) :
    (∀ img c, fs img = some c → 4 ≤ c.length →
        (is_sparse fs img = Outcome.ok true ↔ c.take 4 = SPARSE_MAGIC)) ∧
      is_sparse fs (("super.img").toList) = Outcome.ok false ∧
      normalizeImage tool conv fs (("super.img").toList) = Outcome.ok fs ∧
      transform_sparse_images tool conv fs = Outcome.ok fs ∧
      SPARSE_MAGIC = [0x3A, 0xFF, 0x26, 0xED] ∧
      SPARSE_MAGIC.foldl (fun a b => a * 256 + b) 0 = 0x3AFF26ED := by
  have hiff : ∀ img c, fs img = some c → 4 ≤ c.length →
      (is_sparse fs img = Outcome.ok true ↔ c.take 4 = SPARSE_MAGIC) := by
    intro img c hc h4
    simp only [is_sparse, hc]
    rw [if_neg (by omega)]
    simp only [Outcome.ok.injEq, beq_iff_eq]
  have hfalse : ∀ img c, fs img = some c → 4 ≤ c.length → c.take 4 ≠ SPARSE_MAGIC →
      is_sparse fs img = Outcome.ok false := by
    intro img c hc h4 hraw
    simp only [is_sparse, hc]
    rw [if_neg (by omega)]
    simp only [Outcome.ok.injEq]
    exact beq_eq_false_iff_ne.mpr hraw
  have hnos : normalizeImage tool conv fs (("super.img").toList) = Outcome.ok fs := by
    rw [normalizeImage, hfalse _ cs hs h4s hraws]
  have hnou : normalizeImage tool conv fs (("userdata.img").toList) = Outcome.ok fs := by
    rw [normalizeImage, hfalse _ cu hu h4u hrawu]
  refine ⟨hiff, hfalse _ cs hs h4s hraws, hnos, ?_, rfl, by decide⟩
  rw [transform_sparse_images, hnos]
  exact hnou

/-- Witness for `sparse_normalizer_spec`: a directory in which every file
has the raw contents 1 2 3 4 is left untouched by the transform pass. -/
theorem sparse_normalizer_spec_witness :
    ((fun _ => some [1, 2, 3, 4]) : FS) (("super.img").toList) = some [1, 2, 3, 4] ∧
      4 ≤ ([1, 2, 3, 4] : List Nat).length ∧
      ([1, 2, 3, 4] : List Nat).take 4 ≠ SPARSE_MAGIC ∧
      transform_sparse_images ToolOutcome.notFound (fun b => b)
          (fun _ => some [1, 2, 3, 4]) =
        Outcome.ok (fun _ => some [1, 2, 3, 4]) :=
  ⟨rfl, by norm_num, by decide,
    (sparse_normalizer_spec ToolOutcome.notFound (fun b => b)
      (fun _ => some [1, 2, 3, 4]) [1, 2, 3, 4] [1, 2, 3, 4]
      rfl (by norm_num) (by decide) rfl (by norm_num) (by decide)).2.2.2.1⟩

/-- Claim C8: for architecture aarch64 with the rendering flag false, the
boot-configuration content is exactly the software-rendering property
block from src/components.rs, which contains the literal lines
androidboot.boot_devices=4010000000.pcie and
androidboot.hardware.egl=angle, and contains none of the virgl-specific
property lines (the lines present only in the accelerated variant). -/
theorem bootconfig_aarch64_sw_content :
    bootconfig_content Arch.Aarch64 false = props_aarch64_sw ∧
      (("androidboot.boot_devices=4010000000.pcie") ∈
        bootconfig_content Arch.Aarch64 false) ∧
      (("androidboot.hardware.egl=angle") ∈ bootconfig_content Arch.Aarch64 false) ∧
      virgl_props.all
          (fun l => !((bootconfig_content Arch.Aarch64 false).contains l)) = true := by
  refine ⟨by simp [bootconfig_content], ?_, ?_, ?_⟩
  · decide
  · decide
  · decide

/-- Claim C9: for each architecture the boot-configuration generator
selects its rendering-mode property block by the boolean flag, writing a
longer block when the flag is true, so the two generated contents differ.
-/
theorem bootconfig_virgl_selection :
    ∀ arch, bootconfig_content arch false ≠ bootconfig_content arch true ∧
      (bootconfig_content arch false).length < (bootconfig_content arch true).length := by
  intro arch
  cases arch
  · exact ⟨by decide, by decide⟩
  · exact ⟨by decide, by decide⟩

end Cvd2img
